import Mathlib

/-!
Shallow embedding of `src/components/CameraView.tsx` (a React camera-capture
overlay component) and proofs about it.

The component's local state (`useState` hooks, lines 19-23 of the source) is
modelled by `CompState`; the event handlers (`handleTakePhoto`,
`handleConfirm`, `handleRetake`, `handleSwitchCamera`) are modelled as
functions on that state; the `useEffect` keyed on `facingMode`
(lines 35-74) is modelled by `effectBody` / `runCleanup` / `toggleStep`,
keeping track of the `stream` value captured by the registered cleanup
closure (React closures see the state of the render in which the effect ran,
not the current state).  Calls into the host (track stops, getUserMedia
requests, the `onPhotoTaken` and `onClose` props) are recorded as `Event`s.
The 2D canvas transform built by `handleTakePhoto` is modelled by `Transform`
(the standard a,b,c,d,e,f affine matrix of the platform's 2D context), and
`drawImage` under such a transform by `drawnImage`.
-/

namespace CameraView

/-- Facing mode of the camera request: `'user' | 'environment'`
(source line 21). -/
inductive FacingMode where
  | user
  | environment
deriving DecidableEq

/-- A live media stream: an identifier plus the identifiers of its tracks
(`stream.getTracks()`). -/
structure MediaStream where
  id : Nat
  tracks : List Nat
deriving DecidableEq

/-- The `<video>` element bound to `videoRef`: its native resolution
(`videoWidth`/`videoHeight`) and the current frame, as a pixel function. -/
structure VideoEl where
  videoWidth : Nat
  videoHeight : Nat
  frame : Int → Int → Int

/-- A 2D-context affine transform, in the platform's (a, b, c, d, e, f)
matrix form: a point (x, y) is mapped to (a*x + c*y + e, b*x + d*y + f). -/
structure Transform where
  a : Int
  b : Int
  c : Int
  d : Int
  e : Int
  f : Int
deriving DecidableEq

/-- The identity transform (the state of a freshly reset 2D context). -/
def Transform.id : Transform := ⟨1, 0, 0, 1, 0, 0⟩

/-- Composition of transforms: `(m.mul n).apply p = m.apply (n.apply p)`. -/
def Transform.mul (m n : Transform) : Transform :=
  ⟨m.a * n.a + m.c * n.b, m.b * n.a + m.d * n.b,
   m.a * n.c + m.c * n.d, m.b * n.c + m.d * n.d,
   m.a * n.e + m.c * n.f + m.e, m.b * n.e + m.d * n.f + m.f⟩

/-- Apply a transform to a point. -/
def Transform.apply (m : Transform) (x y : Int) : Int × Int :=
  (m.a * x + m.c * y + m.e, m.b * x + m.d * y + m.f)

/-- `context.translate(x, y)`: post-compose the current transform with a
translation. -/
def Transform.translate (m : Transform) (x y : Int) : Transform :=
  m.mul ⟨1, 0, 0, 1, x, y⟩

/-- `context.scale(sx, sy)`: post-compose the current transform with a
scaling. -/
def Transform.scale (m : Transform) (sx sy : Int) : Transform :=
  m.mul ⟨sx, 0, 0, sy, 0, 0⟩

/-- Pixel semantics of `context.drawImage(video, 0, 0, w, h)` under the
current transform `t`, specialised to the shear-free, unit-magnitude
transforms `handleTakePhoto` builds (identity, or mirror-and-translate):
the destination pixel (x, y) takes the source pixel containing the preimage
of the destination pixel's centre.  Coordinates are doubled so that pixel
centres stay integral: the centre of pixel x is 2*x + 1. -/
def drawnImage (t : Transform) (frame : Int → Int → Int) (x y : Int) : Int :=
  let sx2 := t.a * (2 * x + 1 - 2 * t.e)
  let sy2 := t.d * (2 * y + 1 - 2 * t.f)
  frame ((sx2 - 1) / 2) ((sy2 - 1) / 2)

/-- The offscreen `<canvas>` just before encoding: its dimensions and drawn
pixels. -/
structure Canvas where
  width : Nat
  height : Nat
  pixels : Int → Int → Int

/-- The content of the data URL produced by
`canvas.toDataURL(mime, quality)`: the encoding parameters and the encoded
raster. -/
@[ext] structure Img where
  mime : String
  quality : ℚ
  width : Nat
  height : Nat
  pixels : Int → Int → Int

/-- `canvas.toDataURL(mime, quality)`. -/
def toDataURL (mime : String) (quality : ℚ) (c : Canvas) : Img :=
  ⟨mime, quality, c.width, c.height, c.pixels⟩

/-- The transform set up by `handleTakePhoto` (source lines 87-91): for the
front camera, `translate(canvas.width, 0)` then `scale(-1, 1)` on the fresh
context; for the back camera, no transform. -/
def captureTransform (fm : FacingMode) (canvasWidth : Nat) : Transform :=
  match fm with
  | .user => (Transform.id.translate (canvasWidth : Int) 0).scale (-1) 1
  | .environment => Transform.id

/-- The image captured by `handleTakePhoto` from video element `v` with
facing mode `fm` (source lines 81-93): the canvas is sized to the video's
native resolution, the frame is drawn under `captureTransform`, and the
canvas is encoded as `image/jpeg` at quality 0.9. -/
def captureImg (fm : FacingMode) (v : VideoEl) : Img :=
  toDataURL "image/jpeg" (0.9 : ℚ)
    ⟨v.videoWidth, v.videoHeight,
     drawnImage (captureTransform fm v.videoWidth) v.frame⟩

/-- Horizontal mirror of an encoded image (the spec's notion used to state
the front-camera mirroring property). -/
def mirrorH (img : Img) : Img :=
  { img with pixels := fun x y => img.pixels ((img.width : Int) - 1 - x) y }

/-- The component's local state: the five `useState` hooks of source
lines 19-23. -/
structure CompState where
  stream : Option MediaStream
  capturedImage : Option Img
  facingMode : FacingMode
  error : Option String
  hasMultipleCameras : Bool

/-- The initial state (the `useState` defaults). -/
def initState : CompState :=
  { stream := none, capturedImage := none, facingMode := .user,
    error := none, hasMultipleCameras := false }

/-- The three view states of the render (source lines 121-133). -/
inductive ViewState where
  | live
  | captured
  | error
deriving DecidableEq

/-- Which of the three mutually exclusive views the render shows
(source lines 121-133: `error ? ... : capturedImage ? ... : <video>`). -/
def viewState (s : CompState) : ViewState :=
  if s.error.isSome then .error
  else if s.capturedImage.isSome then .captured
  else .live

/-- The user-clickable affordances of the render. -/
inductive Action where
  | takePhoto
  | retake
  | confirm
  | switchCamera
  | close
  | goBack
deriving DecidableEq

/-- The buttons rendered in each state (source lines 137-179): the error
branch shows only Go Back; the captured branch shows Retake and Use Photo;
the live branch shows the shutter and (only with multiple cameras) the
switch button; the corner close button is rendered iff no image is captured
and no error is set (line 173). -/
def availableActions (s : CompState) : List Action :=
  (if s.error.isSome then [.goBack]
   else if s.capturedImage.isSome then [.retake, .confirm]
   else [.takePhoto] ++ (if s.hasMultipleCameras then [.switchCamera] else []))
  ++ (if !s.capturedImage.isSome && !s.error.isSome then [.close] else [])

/-- Calls the component makes to the outside world. -/
inductive Event where
  | stopTrack (streamId trackId : Nat)
  | request (fm : FacingMode) (idealWidth idealHeight : Nat)
  | photoTaken (img : Img)
  | closed

/-- `handleTakePhoto` (source lines 76-97): requires both refs to be
populated and a 2D context to be available; sizes the canvas to the video,
draws the (possibly mirrored) frame, and stores the JPEG data URL.  No
check of the video's dimensions is made. -/
def handleTakePhoto (videoRef : Option VideoEl) (canvasRef ctxAvailable : Bool)
    (s : CompState) : CompState :=
  match videoRef, canvasRef with
  | some v, true =>
      if ctxAvailable then
        { s with capturedImage := some (captureImg s.facingMode v) }
      else s
  | _, _ => s

/-- `handleConfirm` (source lines 99-103): calls `onPhotoTaken` with the
held image when one is present; otherwise does nothing.  The state is not
changed. -/
def handleConfirm (s : CompState) : List Event :=
  match s.capturedImage with
  | some img => [.photoTaken img]
  | none => []

/-- `handleRetake` (source lines 105-107): `setCapturedImage(null)` and
nothing else. -/
def handleRetake (s : CompState) : CompState :=
  { s with capturedImage := none }

/-- `handleSwitchCamera` (source lines 109-111). -/
def handleSwitchCamera (s : CompState) : CompState :=
  { s with facingMode := if s.facingMode = .user then .environment else .user }

/-- `stream.getTracks().forEach(track => track.stop())`. -/
def stopTracks (s : MediaStream) : List Event :=
  s.tracks.map (fun t => .stopTrack s.id t)

/-- The permission-denied message (source line 61). -/
def permissionDeniedMsg : String :=
  "Camera permission denied. Please enable it in your browser settings and refresh."

/-- The generic failure message (source line 63). -/
def cameraUnavailableMsg : String :=
  "Could not access camera. Please make sure it\x27s not being used by another app."

/-- A getUserMedia rejection value: either an `Error` instance with a
`name`, or some non-`Error` value. -/
inductive RejectReason where
  | errorNamed (name : String)
  | nonError
deriving DecidableEq

/-- The error-state update performed by the `catch` handler (source
lines 57-66): only `Error` instances are classified (`err instanceof
Error`); a `NotAllowedError` yields the permission message and any other
named error the generic message; a non-`Error` rejection leaves the error
state untouched. -/
def catchUpdate (err : RejectReason) (error : Option String) : Option String :=
  match err with
  | .errorNamed name =>
      if name = "NotAllowedError" then some permissionDeniedMsg
      else some cameraUnavailableMsg
  | .nonError => error

/-- The world the effect machinery sees: the component state plus the
`stream` value captured by the currently registered effect cleanup closure
(`some c` once an effect has run, where `c` is the `stream` state of the
render in which it ran). -/
structure World where
  st : CompState
  cleanup : Option (Option MediaStream)

/-- The body of the `useEffect` keyed on `facingMode` (source lines 35-67):
stop the tracks of the closure's `stream` (the state of the current render),
then issue the getUserMedia request with the facing mode and the ideal
1280x720 resolution. -/
def effectBody (st : CompState) : List Event :=
  (match st.stream with
   | some s => stopTracks s
   | none => []) ++ [.request st.facingMode 1280 720]

/-- Running the registered cleanup (source lines 69-73): stops the tracks of
the stream captured by the cleanup's closure, if any. -/
def runCleanup (c : Option (Option MediaStream)) : List Event :=
  match c with
  | some (some s) => stopTracks s
  | _ => []

/-- Mounting: the effect body runs with the initial render's state and
registers its cleanup over that state's `stream`. -/
def mountStep (st : CompState) : World × List Event :=
  (⟨st, some st.stream⟩, effectBody st)

/-- A facing-mode toggle: `handleSwitchCamera` updates the state, the
re-render with changed dependencies first runs the previously registered
cleanup, then runs the effect body with the new render's state, which
registers a new cleanup over that state's `stream`. -/
def toggleStep (w : World) : World × List Event :=
  let st1 := handleSwitchCamera w.st
  (⟨st1, some st1.stream⟩, runCleanup w.cleanup ++ effectBody st1)

/-- getUserMedia resolving with stream `s` (source lines 50-56): the stream
is stored, bound to the video element, and the error is cleared. -/
def resolveStep (w : World) (s : MediaStream) : World :=
  { w with st := { w.st with stream := some s, error := none } }

/-- getUserMedia rejecting (source lines 57-66). -/
def rejectStep (w : World) (r : RejectReason) : World :=
  { w with st := { w.st with error := catchUpdate r w.st.error } }

/-- The device-enumeration effect resolving with `n` video inputs (source
lines 25-33): sets the multiple-cameras flag when more than one exists,
and never clears it. -/
def enumerateStep (w : World) (n : Nat) : World :=
  { w with st := { w.st with
      hasMultipleCameras := if n > 1 then true else w.st.hasMultipleCameras } }

/-- Number of stop calls addressed to track `tid` of stream `sid` in an
event list. -/
def countStop (sid tid : Nat) : List Event → Nat
  | [] => 0
  | .stopTrack a b :: rest =>
      (if a = sid ∧ b = tid then 1 else 0) + countStop sid tid rest
  | _ :: rest => countStop sid tid rest

/-- One step of the component's life: an asynchronous platform completion,
or a click on a rendered button (guarded by that button actually being
rendered), with the events it emits. -/
inductive Step : World → List Event → World → Prop where
  | enumerate (w : World) (n : Nat) : Step w [] (enumerateStep w n)
  | resolve (w : World) (s : MediaStream) : Step w [] (resolveStep w s)
  | reject (w : World) (r : RejectReason) : Step w [] (rejectStep w r)
  | takePhoto (w : World) (v : Option VideoEl) (c ctx : Bool)
      (h : Action.takePhoto ∈ availableActions w.st) :
      Step w [] { w with st := handleTakePhoto v c ctx w.st }
  | confirm (w : World) (h : Action.confirm ∈ availableActions w.st) :
      Step w (handleConfirm w.st) w
  | retake (w : World) (h : Action.retake ∈ availableActions w.st) :
      Step w [] { w with st := handleRetake w.st }
  | switch (w : World) (h : Action.switchCamera ∈ availableActions w.st) :
      Step w (toggleStep w).2 (toggleStep w).1
  | close (w : World)
      (h : Action.close ∈ availableActions w.st ∨
           Action.goBack ∈ availableActions w.st) :
      Step w [.closed] w

/-- The world right after mount. -/
def initWorld : World := (mountStep initState).1

/-- Worlds reachable from the mounted component. -/
inductive Reachable : World → Prop where
  | init : Reachable initWorld
  | step {w : World} {evs : List Event} {w' : World} :
      Reachable w → Step w evs w' → Reachable w'

/-- Whether the render offers an affordance wired to the `onClose` prop:
the corner close button (source line 173) or the error view's Go Back
button (source line 139). -/
def closeAffordance (s : CompState) : Prop :=
  Action.close ∈ availableActions s ∨ Action.goBack ∈ availableActions s

/-- A video element whose feed has zero dimensions (metadata not yet
loaded). -/
def zeroVideo : VideoEl := ⟨0, 0, fun _ _ => 0⟩

/-- A concrete small video element. -/
def sampleVideo : VideoEl := ⟨2, 2, fun _ _ => 0⟩

/-- A state in the Captured view: the initial state with a held still. -/
def capturedState : CompState :=
  { initState with capturedImage := some (captureImg FacingMode.user sampleVideo) }

/-- Claim C1 (amended): the capture action is only reachable when no error
is present and no captured image is already held; nothing in the code
requires the video feed to have nonzero dimensions. -/
theorem c1_capture_guard (s : CompState)
    (h : Action.takePhoto ∈ availableActions s) :
    s.error = none ∧ s.capturedImage = none := by
  obtain ⟨str, cap, fm, err, multi⟩ := s
  cases err <;> cases cap <;> simp_all [availableActions]

/-- Claim C1 witness: the amended guard instantiated at the initial state,
where the shutter button is rendered. -/
theorem c1_capture_guard_witness :
    initState.error = none ∧ initState.capturedImage = none :=
  c1_capture_guard initState (by decide)

/-- Claim C1 counterexample: in the initial state the shutter is rendered
and pressing it with a zero-dimension video feed still produces a captured
image, so capture is not restricted to nonzero video dimensions. -/
theorem c1_counterexample :
    Action.takePhoto ∈ availableActions initState ∧
    zeroVideo.videoWidth = 0 ∧ zeroVideo.videoHeight = 0 ∧
    ((handleTakePhoto (some zeroVideo) true true initState).capturedImage).isSome
      = true :=
  ⟨by decide, rfl, rfl, rfl⟩

/-- Claim C2: a front-facing capture applies translate(width) then
scale(-1, 1) before drawing, a back-facing capture applies no transform,
and the front capture of a frame is the horizontal mirror of the back
capture of the identical frame. -/
theorem c2_front_capture_mirrors_back (v : VideoEl) :
    captureTransform FacingMode.user v.videoWidth
      = (Transform.id.translate (v.videoWidth : Int) 0).scale (-1) 1 ∧
    captureTransform FacingMode.environment v.videoWidth = Transform.id ∧
    captureImg FacingMode.user v = mirrorH (captureImg FacingMode.environment v) := by
  refine ⟨rfl, rfl, ?_⟩
  unfold captureImg mirrorH toDataURL
  refine Img.ext rfl rfl rfl rfl ?_
  funext x y
  simp only [captureTransform, Transform.id, Transform.translate,
    Transform.scale, Transform.mul, drawnImage]
  congr 1 <;> ring_nf

/-- Claim C3: every successful capture sizes the canvas exactly to the
video's native resolution and encodes it as a JPEG data URL at fixed
quality 0.9. -/
theorem c3_capture_size_and_format (s : CompState) (v : VideoEl) :
    (handleTakePhoto (some v) true true s).capturedImage
      = some (captureImg s.facingMode v) ∧
    (captureImg s.facingMode v).width = v.videoWidth ∧
    (captureImg s.facingMode v).height = v.videoHeight ∧
    (captureImg s.facingMode v).mime = "image/jpeg" ∧
    (captureImg s.facingMode v).quality = 0.9 :=
  ⟨rfl, rfl, rfl, rfl, rfl⟩

/-- Claim C5: a rejection that is a named Error sets the error message,
classified into exactly the two messages (NotAllowedError yields the
permission message, anything else the generic one); a non-Error rejection
leaves the error state unchanged; a successful acquisition clears the
error to `none`. -/
theorem c5_failure_classification (name : String) (e : Option String)
    (w : World) (s : MediaStream) :
    catchUpdate (.errorNamed name) e
      = some (if name = "NotAllowedError" then permissionDeniedMsg
              else cameraUnavailableMsg) ∧
    catchUpdate .nonError e = e ∧
    (resolveStep w s).st.error = none := by
  refine ⟨?_, rfl, rfl⟩
  by_cases h : name = "NotAllowedError" <;> simp [catchUpdate, h]

/-- Claim C6: the confirm action is rendered only in the Captured view, and
firing it passes exactly the currently held still to `onPhotoTaken`. -/
theorem c6_confirm_from_captured (s : CompState)
    (h : Action.confirm ∈ availableActions s) :
    viewState s = ViewState.captured ∧
    ∃ img, s.capturedImage = some img ∧
      handleConfirm s = [Event.photoTaken img] := by
  obtain ⟨str, cap, fm, err, multi⟩ := s
  cases err <;> cases cap <;>
    simp_all [availableActions, viewState, handleConfirm]

/-- Claim C6 witness: the confirm property at a concrete captured state. -/
theorem c6_confirm_from_captured_witness :
    viewState capturedState = ViewState.captured ∧
    ∃ img, capturedState.capturedImage = some img ∧
      handleConfirm capturedState = [Event.photoTaken img] :=
  c6_confirm_from_captured capturedState (by decide)

/-- Claim C7: an affordance wired to `onClose` is available if and only if
the rendered view is not Captured, and the Captured view offers exactly
retake and confirm. -/
theorem c7_close_iff_not_captured (s : CompState) :
    (closeAffordance s ↔ viewState s ≠ ViewState.captured) ∧
    (viewState s = ViewState.captured →
      availableActions s = [Action.retake, Action.confirm]) := by
  obtain ⟨str, cap, fm, err, multi⟩ := s
  cases err <;> cases cap <;> cases multi <;>
    simp [closeAffordance, availableActions, viewState]

/-- Claim C7 witness: the close-affordance property at a concrete captured
state. -/
theorem c7_close_iff_not_captured_witness :
    (closeAffordance capturedState ↔ viewState capturedState ≠ ViewState.captured) ∧
    (viewState capturedState = ViewState.captured →
      availableActions capturedState = [Action.retake, Action.confirm]) :=
  c7_close_iff_not_captured capturedState

/-- Claim C8: retake only clears the captured image; the stream handle,
the facing mode, the error message and the multi-camera flag are unchanged,
and the handler is exactly that state update (in particular it stops no
track and emits no event). -/
theorem c8_retake_only_clears_capture (s : CompState) :
    handleRetake s = { s with capturedImage := none } ∧
    (handleRetake s).capturedImage = none ∧
    (handleRetake s).stream = s.stream ∧
    (handleRetake s).facingMode = s.facingMode ∧
    (handleRetake s).error = s.error ∧
    (handleRetake s).hasMultipleCameras = s.hasMultipleCameras :=
  ⟨rfl, rfl, rfl, rfl, rfl, rfl⟩

/-- Claim C9: the render shows the error view exactly when an error is set,
the captured view exactly when no error is set and a still is held, and the
live video exactly when neither is set — so error takes priority over the
captured still, which takes priority over the live feed, and at most one of
them is active in the rendered view. -/
theorem c9_render_priority (s : CompState) :
    (viewState s = ViewState.error ↔ s.error.isSome = true) ∧
    (viewState s = ViewState.captured ↔
      s.error = none ∧ s.capturedImage.isSome = true) ∧
    (viewState s = ViewState.live ↔
      s.error = none ∧ s.capturedImage = none) := by
  obtain ⟨str, cap, fm, err, multi⟩ := s
  cases err <;> cases cap <;> simp [viewState]

theorem countStop_append (sid tid : Nat) (l1 l2 : List Event) :
    countStop sid tid (l1 ++ l2) = countStop sid tid l1 + countStop sid tid l2 := by
  induction l1 with
  | nil => simp [countStop]
  | cons e rest ih => cases e <;> simp [countStop, ih, Nat.add_assoc]

theorem countStop_map_ne {sid sid' : Nat} (tid : Nat) (h : sid' ≠ sid)
    (l : List Nat) :
    countStop sid tid (l.map fun tr => Event.stopTrack sid' tr) = 0 := by
  induction l with
  | nil => rfl
  | cons a l ih => simp [countStop, h, ih]

theorem countStop_map_zero_of_notmem (sid tid : Nat) {l : List Nat}
    (h : tid ∉ l) :
    countStop sid tid (l.map fun tr => Event.stopTrack sid tr) = 0 := by
  induction l with
  | nil => rfl
  | cons a l ih =>
    simp only [List.mem_cons, not_or] at h
    have ha : ¬(a = tid) := fun hh => h.1 hh.symm
    simp [countStop, ha, ih h.2]

theorem countStop_map_self (sid tid : Nat) (l : List Nat) (hnd : l.Nodup)
    (ht : tid ∈ l) :
    countStop sid tid (l.map fun tr => Event.stopTrack sid tr) = 1 := by
  induction l with
  | nil => cases ht
  | cons a l ih =>
    rw [List.nodup_cons] at hnd
    rcases List.mem_cons.mp ht with heq | ht'
    · subst heq
      simp [countStop, countStop_map_zero_of_notmem sid tid hnd.1]
    · have hne : ¬(a = tid) := fun hh => hnd.1 (hh ▸ ht')
      simp [countStop, hne, ih hnd.2 ht']

theorem countStop_stopTracks_self (s : MediaStream) (t : Nat)
    (hnd : s.tracks.Nodup) (ht : t ∈ s.tracks) :
    countStop s.id t (stopTracks s) = 1 :=
  countStop_map_self s.id t s.tracks hnd ht

theorem countStop_stopTracks_ne {s : MediaStream} {sid : Nat} (t : Nat)
    (h : s.id ≠ sid) :
    countStop sid t (stopTracks s) = 0 :=
  countStop_map_ne t h s.tracks

theorem effectBody_some {st : CompState} {s : MediaStream}
    (h : st.stream = some s) :
    effectBody st = stopTracks s ++ [Event.request st.facingMode 1280 720] := by
  unfold effectBody
  rw [h]

theorem toggleStep_events (w : World) :
    (toggleStep w).2 = runCleanup w.cleanup ++ effectBody (handleSwitchCamera w.st) :=
  rfl

/-- Claim C4 (amended): on a facing-mode toggle whose registered cleanup
closure holds a stream distinct from the currently held one (the normal
case, where the previous acquisition resolved before this toggle), the
previously held stream's tracks are each stopped exactly once, and all
these stops happen before the new getUserMedia request is issued (the
request is the last event of the switch sequence). -/
theorem c4_stop_once_before_request (w : World) (s : MediaStream)
    (hs : w.st.stream = some s) (hnd : s.tracks.Nodup)
    (hfresh : ∀ s', w.cleanup = some (some s') → s'.id ≠ s.id) :
    ∃ pre, (toggleStep w).2
        = pre ++ [Event.request (handleSwitchCamera w.st).facingMode 1280 720] ∧
      ∀ t ∈ s.tracks, countStop s.id t pre = 1 := by
  have hstream : (handleSwitchCamera w.st).stream = some s := hs
  refine ⟨runCleanup w.cleanup ++ stopTracks s, ?_, ?_⟩
  · rw [toggleStep_events, effectBody_some hstream, List.append_assoc]
  · intro t ht
    have h1 : countStop s.id t (runCleanup w.cleanup) = 0 := by
      rcases hcl : w.cleanup with _ | cs
      · rfl
      · rcases cs with _ | s'
        · rfl
        · exact countStop_stopTracks_ne t (hfresh s' hcl)
    rw [countStop_append, h1, countStop_stopTracks_self s t hnd ht]

/-- A concrete stream with one track. -/
def streamA : MediaStream := ⟨1, [7]⟩

/-- A world in the Live view holding `streamA`, whose registered cleanup
closure captured no stream (the mount situation after the first
acquisition resolved). -/
def readyWorld : World :=
  { st := { initState with stream := some streamA, hasMultipleCameras := true },
    cleanup := some none }

/-- Claim C4 witness: the exactly-once property at `readyWorld`. -/
theorem c4_stop_once_before_request_witness :
    ∃ pre, (toggleStep readyWorld).2
        = pre ++ [Event.request (handleSwitchCamera readyWorld.st).facingMode 1280 720] ∧
      ∀ t ∈ streamA.tracks, countStop streamA.id t pre = 1 :=
  c4_stop_once_before_request readyWorld streamA rfl (by decide)
    (fun s' h => by simp [readyWorld] at h)

/-- The world after toggling `readyWorld` while the new acquisition is
still pending: the cleanup closure now holds the same stream the state
holds. -/
def staleWorld : World := (toggleStep readyWorld).1

/-- Claim C4 counterexample: `staleWorld` is reachable, the switch button
is rendered there, and toggling stops the single track of the previously
held stream twice (once from the stale cleanup closure, once from the
effect body), not exactly once. -/
theorem c4_counterexample :
    Reachable staleWorld ∧
    staleWorld.st.stream = some streamA ∧
    staleWorld.cleanup = some (some streamA) ∧
    Action.switchCamera ∈ availableActions staleWorld.st ∧
    countStop streamA.id 7 (toggleStep staleWorld).2 = 2 ∧
    countStop streamA.id 7 (toggleStep staleWorld).2 ≠ 1 := by
  refine ⟨?_, rfl, rfl, by decide, by decide, by decide⟩
  have h1 : Reachable initWorld := Reachable.init
  have h2 := h1.step (Step.enumerate initWorld 2)
  have h3 := h2.step (Step.resolve (enumerateStep initWorld 2) streamA)
  have heq : resolveStep (enumerateStep initWorld 2) streamA = readyWorld := rfl
  rw [heq] at h3
  exact h3.step (Step.switch readyWorld (by decide))

theorem photoTaken_not_mem_stopTracks (s : MediaStream) (img : Img) :
    Event.photoTaken img ∉ stopTracks s := by
  simp [stopTracks]

theorem photoTaken_not_mem_runCleanup (c : Option (Option MediaStream))
    (img : Img) :
    Event.photoTaken img ∉ runCleanup c := by
  rcases c with _ | cs
  · simp [runCleanup]
  · rcases cs with _ | s
    · simp [runCleanup]
    · exact photoTaken_not_mem_stopTracks s img

theorem photoTaken_not_mem_effectBody (st : CompState) (img : Img) :
    Event.photoTaken img ∉ effectBody st := by
  unfold effectBody
  cases hst : st.stream with
  | none => simp
  | some s => simp [stopTracks]

theorem photoTaken_not_mem_toggle (w : World) (img : Img) :
    Event.photoTaken img ∉ (toggleStep w).2 := by
  intro h
  rcases List.mem_append.mp h with h | h
  · exact photoTaken_not_mem_runCleanup w.cleanup img h
  · exact photoTaken_not_mem_effectBody (handleSwitchCamera w.st) img h

theorem handleTakePhoto_capturedImage (videoRef : Option VideoEl)
    (c ctx : Bool) (s : CompState) :
    (handleTakePhoto videoRef c ctx s).capturedImage = s.capturedImage ∨
    ∃ v, videoRef = some v ∧
      (handleTakePhoto videoRef c ctx s).capturedImage
        = some (captureImg s.facingMode v) := by
  cases videoRef with
  | none => exact Or.inl rfl
  | some v =>
    cases c with
    | false => exact Or.inl rfl
    | true =>
      cases ctx with
      | false => exact Or.inl rfl
      | true => exact Or.inr ⟨v, rfl, rfl⟩

/-- Any single step preserves the fact that a held captured image was
produced by the capture routine. -/
theorem capturedImage_step {w : World} {evs : List Event} {w' : World}
    (hs : Step w evs w')
    (hw : ∀ img, w.st.capturedImage = some img → ∃ fm v, img = captureImg fm v) :
    ∀ img, w'.st.capturedImage = some img → ∃ fm v, img = captureImg fm v := by
  cases hs with
  | enumerate n => exact hw
  | resolve s => exact hw
  | reject r => exact hw
  | confirm h => exact hw
  | close h => exact hw
  | switch h => exact hw
  | retake h =>
    intro img hcap
    simp [handleRetake] at hcap
  | takePhoto v c ctx h =>
    intro img hcap
    rcases handleTakePhoto_capturedImage v c ctx w.st with heq | ⟨vid, _, heq⟩
    · exact hw img (heq.symm.trans hcap)
    · exact ⟨w.st.facingMode, vid, (Option.some.inj (heq.symm.trans hcap)).symm⟩

/-- In every reachable world, a held captured image was produced by the
capture routine from some facing mode and some video frame. -/
theorem captured_is_captureImg {w : World} (hr : Reachable w) :
    ∀ img, w.st.capturedImage = some img → ∃ fm v, img = captureImg fm v := by
  induction hr with
  | init =>
    intro img h
    simp [initWorld, mountStep, initState] at h
  | step hr' hs ih => exact capturedImage_step hs ih

/-- Claim C10: with no held image, confirm emits nothing (the photo
callback is never invoked with an absent image), and every `photoTaken`
event any reachable step emits carries exactly the currently held image,
which was produced by a prior capture. -/
theorem c10_confirm_safety {w : World} {evs : List Event} {w' : World}
    (hr : Reachable w) (hs : Step w evs w') :
    (w.st.capturedImage = none → handleConfirm w.st = []) ∧
    ∀ img, Event.photoTaken img ∈ evs →
      w.st.capturedImage = some img ∧ ∃ fm v, img = captureImg fm v := by
  constructor
  · intro h
    simp [handleConfirm, h]
  · intro img hmem
    cases hs with
    | enumerate n => cases hmem
    | resolve s => cases hmem
    | reject r => cases hmem
    | takePhoto v c ctx h => cases hmem
    | retake h => cases hmem
    | close h => simp at hmem
    | switch h => exact absurd hmem (photoTaken_not_mem_toggle w img)
    | confirm h =>
      cases hcap : w.st.capturedImage with
      | none => simp [handleConfirm, hcap] at hmem
      | some a =>
        simp only [handleConfirm, hcap, List.mem_singleton,
          Event.photoTaken.injEq] at hmem
        subst hmem
        exact ⟨rfl, captured_is_captureImg hr img hcap⟩

/-- Claim C10 witness: the confirm-safety property at the freshly mounted
world, stepped by a device enumeration (which emits no events). -/
theorem c10_confirm_safety_witness :
    (initWorld.st.capturedImage = none → handleConfirm initWorld.st = []) ∧
    ∀ img, Event.photoTaken img ∈ ([] : List Event) →
      initWorld.st.capturedImage = some img ∧ ∃ fm v, img = captureImg fm v :=
  c10_confirm_safety Reachable.init (Step.enumerate initWorld 2)

end CameraView
